import Mathlib

/-!
# Planning Poker (`app.js`): a shallow embedding and its verified properties

The application keeps three variables (`currentTask`, `selectedCard`,
`estimationHistory`), reads one text field (`taskInput.value`), and persists the
history as JSON text under one `localStorage` key.  The embedding below makes
that state explicit, passes the answers of the environment (`Date.now()`,
`toLocaleString()`, `confirm(...)`, whether `setItem` throws) as an `Env`
record, and models the two JSON built-ins the code calls.

Strings are JavaScript strings: sequences of UTF-16 code units.

What only draws on the page is left out: `renderCards`, `renderHistory`,
`escapeHtml`, `showSuccessMessage`, the CSS classes and the texts shown.  The
`keypress` listener of the task field only moves the focus and is covered by
the focus-change event.
-/

namespace PlanningPoker

/-! ## JavaScript strings -/

/-- A JavaScript string, as the list of its UTF-16 code units. -/
abbrev JSString := List Nat

/-- The UTF-16 encoding of a string literal of the source. -/
def utf16 (s : String) : JSString :=
  s.toList.flatMap fun c =>
    if c.toNat < 65536 then [c.toNat]
    else [55296 + (c.toNat - 65536) / 1024, 56320 + (c.toNat - 65536) % 1024]

/-- The code units `String.prototype.trim` strips: ECMAScript WhiteSpace and
LineTerminator (TAB, LF, VT, FF, CR, SP, NBSP, U+1680, U+2000..U+200A, LS, PS,
U+202F, U+205F, U+3000, BOM). -/
def isWhiteSpace (c : Nat) : Bool :=
  c == 0x09 || c == 0x0A || c == 0x0B || c == 0x0C || c == 0x0D || c == 0x20 ||
  c == 0xA0 || c == 0x1680 || (0x2000 ≤ c && c ≤ 0x200A) || c == 0x2028 ||
  c == 0x2029 || c == 0x202F || c == 0x205F || c == 0x3000 || c == 0xFEFF

/-- The method `String.prototype.trim`: white space removed from both ends. -/
def trim (s : JSString) : JSString :=
  (s.dropWhile isWhiteSpace).rdropWhile isWhiteSpace

/-- JavaScript truthiness of a string: every string but the empty one. -/
def truthy (s : JSString) : Bool := !s.isEmpty

/-- JavaScript truthiness of a variable that holds `null` or a string. -/
def truthyOrNull : Option JSString → Bool
  | none => false
  | some s => truthy s

/-! ## JSON values, `JSON.stringify` on the history, `JSON.parse` -/

/-- A JavaScript value of the kinds the history can hold or `JSON.parse` can
return.  A finite number carries the exact decimal value of its literal (the
rounding of finite values to IEEE doubles is not modelled); `NaN` and the two
infinities are values of their own; an object is the ordered list of its
members. -/
inductive JSValue where
  | null
  | bool (b : Bool)
  | number (q : ℚ)
  | nan
  | infinity (negative : Bool)
  | string (s : JSString)
  | array (items : List JSValue)
  | object (members : List (JSString × JSValue))

/-- The number a record carries as its `id`: an integer (every reading of
`Date.now()` is one), `NaN`, or an infinity (a stored `1e400` loads as one).
Finite numbers with a fraction and negative zero are not represented: their
text form needs IEEE arithmetic. -/
inductive JSNumber where
  | int (n : Int)
  | nan
  | infinity (negative : Bool)
deriving DecidableEq, Repr

/-- Strict equality `===` on numbers: `NaN` equals nothing, itself included. -/
def JSNumber.strictEquals : JSNumber → JSNumber → Bool
  | JSNumber.nan, _ => false
  | _, JSNumber.nan => false
  | a, b => decide (a = b)

/-- The JavaScript value a number is. -/
def JSNumber.toJS : JSNumber → JSValue
  | JSNumber.int n => JSValue.number (n : ℚ)
  | JSNumber.nan => JSValue.nan
  | JSNumber.infinity negative => JSValue.infinity negative

/-- One saved estimation: an object with a numeric `id` and three strings, the
shape of the object literal built in `saveEstimation`. -/
structure Estimation where
  id : JSNumber
  task : JSString
  estimate : JSString
  timestamp : JSString
deriving DecidableEq, Repr

/-- The JavaScript object an estimation record is. -/
def Estimation.toJS (e : Estimation) : JSValue :=
  JSValue.object
    [(utf16 "id", e.id.toJS), (utf16 "task", JSValue.string e.task),
     (utf16 "estimate", JSValue.string e.estimate),
     (utf16 "timestamp", JSValue.string e.timestamp)]

/-- The JavaScript array a history of records is. -/
def historyToJS (h : List Estimation) : JSValue :=
  JSValue.array (h.map Estimation.toJS)

/-- Lower-case hexadecimal digit of a value below 16. -/
def hexDigit (n : Nat) : Nat := if n < 10 then 48 + n else 87 + n

/-- UnicodeEscape of ECMAScript: a backslash, `u`, four hexadecimal digits. -/
def unicodeEscape (c : Nat) : List Nat :=
  [0x5C, 0x75, hexDigit (c / 4096 % 16), hexDigit (c / 256 % 16),
   hexDigit (c / 16 % 16), hexDigit (c % 16)]

/-- A leading (high) surrogate code unit. -/
def isLeadingSurrogate (c : Nat) : Bool := 0xD800 ≤ c && c ≤ 0xDBFF

/-- A trailing (low) surrogate code unit. -/
def isTrailingSurrogate (c : Nat) : Bool := 0xDC00 ≤ c && c ≤ 0xDFFF

/-- QuoteJSONString on one code point that is a single code unit: the two-character
escapes of the table, a unicode escape for the other control characters and for
a lone surrogate, the code unit itself otherwise. -/
def quoteCodeUnit (c : Nat) : List Nat :=
  if c = 0x08 then [0x5C, 0x62]
  else if c = 0x09 then [0x5C, 0x74]
  else if c = 0x0A then [0x5C, 0x6E]
  else if c = 0x0C then [0x5C, 0x66]
  else if c = 0x0D then [0x5C, 0x72]
  else if c = 0x22 then [0x5C, 0x22]
  else if c = 0x5C then [0x5C, 0x5C]
  else if c < 0x20 || isLeadingSurrogate c || isTrailingSurrogate c then unicodeEscape c
  else [c]

/-- QuoteJSONString without the enclosing quotes: the string is read code point
by code point, a leading surrogate followed by a trailing one being one code
point that is copied unchanged. -/
def quoteBody : JSString → List Nat
  | [] => []
  | [c] => quoteCodeUnit c
  | c :: d :: rest =>
    if isLeadingSurrogate c && isTrailingSurrogate d then c :: d :: quoteBody rest
    else quoteCodeUnit c ++ quoteBody (d :: rest)

/-- QuoteJSONString of ECMAScript. -/
def quoteJSONString (s : JSString) : List Nat :=
  0x22 :: (quoteBody s ++ [0x22])

/-- Decimal digits of a natural number, most significant first, pushed in
front of `acc`. -/
def decimalDigits : Nat → Nat → List Nat → List Nat
  | 0, _, acc => acc
  | fuel + 1, n, acc =>
    if n / 10 = 0 then (48 + n % 10) :: acc
    else decimalDigits fuel (n / 10) ((48 + n % 10) :: acc)

/-- Number::toString on a non-negative integer below 10^21: its decimal
digits.  (From 10^21 on JavaScript writes an exponent form, which needs IEEE
arithmetic and is not modelled; every reading of `Date.now()` lies below.) -/
def numberToString (n : Nat) : List Nat := decimalDigits (n + 1) n []

/-- Number::toString on an integer of magnitude below 10^21: a minus sign for
a negative one, then the digits of the magnitude. -/
def integerToString (n : Int) : List Nat :=
  if n < 0 then 0x2D :: numberToString n.natAbs else numberToString n.natAbs

/-- SerializeJSONProperty on a Number: the text of a finite number, and `null`
for `NaN` and the infinities. -/
def serializeNumber : JSNumber → List Nat
  | JSNumber.int n => integerToString n
  | JSNumber.nan => utf16 "null"
  | JSNumber.infinity _ => utf16 "null"

/-- The text `JSON.stringify` writes for one estimation record: the four
properties in creation order. -/
def stringifyEstimation (e : Estimation) : List Nat :=
  [0x7B] ++ quoteJSONString (utf16 "id") ++ [0x3A] ++ serializeNumber e.id ++
  [0x2C] ++ quoteJSONString (utf16 "task") ++ [0x3A] ++ quoteJSONString e.task ++
  [0x2C] ++ quoteJSONString (utf16 "estimate") ++ [0x3A] ++ quoteJSONString e.estimate ++
  [0x2C] ++ quoteJSONString (utf16 "timestamp") ++ [0x3A] ++ quoteJSONString e.timestamp ++
  [0x7D]

/-- The elements of an array, separated by commas. -/
def stringifyElements : List Estimation → List Nat
  | [] => []
  | [e] => stringifyEstimation e
  | e :: rest => stringifyEstimation e ++ [0x2C] ++ stringifyElements rest

/-- The call `JSON.stringify(estimationHistory)` on an array of estimation
records. -/
def JSON.stringify (h : List Estimation) : JSString :=
  [0x5B] ++ stringifyElements h ++ [0x5D]

/-- JSON white space: space, TAB, LF, CR. -/
def isJSONWhiteSpace (c : Nat) : Bool :=
  c == 0x20 || c == 0x09 || c == 0x0A || c == 0x0D

/-- The input after its leading JSON white space. -/
def skipWS (input : List Nat) : List Nat := input.dropWhile isJSONWhiteSpace

/-- A decimal digit, `0` to `9`. -/
def isDigit (c : Nat) : Bool := 48 ≤ c && c ≤ 57

/-- Value of a hexadecimal digit, either case. -/
def hexVal (c : Nat) : Option Nat :=
  if 48 ≤ c ∧ c ≤ 57 then some (c - 48)
  else if 97 ≤ c ∧ c ≤ 102 then some (c - 87)
  else if 65 ≤ c ∧ c ≤ 70 then some (c - 55)
  else none

/-- The code unit a two-character escape stands for. -/
def unescape (e : Nat) : Option Nat :=
  if e = 0x22 then some 0x22
  else if e = 0x5C then some 0x5C
  else if e = 0x2F then some 0x2F
  else if e = 0x62 then some 0x08
  else if e = 0x66 then some 0x0C
  else if e = 0x6E then some 0x0A
  else if e = 0x72 then some 0x0D
  else if e = 0x74 then some 0x09
  else none

/-- A JSON string after its opening quote: the code units up to the closing
quote, escapes decoded, and the rest of the input. -/
def parseStringBody : List Nat → Option (JSString × List Nat)
  | [] => none
  | c :: rest =>
    if c = 0x22 then some ([], rest)
    else if c = 0x5C then
      match rest with
      | [] => none
      | e :: rest2 =>
        if e = 0x75 then
          match rest2 with
          | a :: b :: c3 :: d :: rest3 =>
            match hexVal a, hexVal b, hexVal c3, hexVal d, parseStringBody rest3 with
            | some x, some y, some z, some w, some (s, r) =>
              some ((x * 4096 + y * 256 + z * 16 + w) :: s, r)
            | _, _, _, _, _ => none
          | _ => none
        else
          match unescape e, parseStringBody rest2 with
          | some u, some (s, r) => some (u :: s, r)
          | _, _ => none
    else if c < 0x20 then none
    else
      match parseStringBody rest with
      | some (s, r) => some (c :: s, r)
      | none => none

/-- Value of a run of decimal digits. -/
def digitsValue (ds : List Nat) : Nat :=
  ds.foldl (fun acc d => 10 * acc + (d - 48)) 0

/-- The integer part of a JSON number: `0`, or a non-zero digit and digits. -/
def parseInt (input : List Nat) : Option (Nat × List Nat) :=
  match input with
  | [] => none
  | c :: rest =>
    if c = 48 then some (0, rest)
    else if isDigit c then
      some (digitsValue (c :: rest.takeWhile isDigit), rest.dropWhile isDigit)
    else none

/-- The optional fraction of a JSON number: a point and at least one digit. -/
def parseFrac (input : List Nat) : Option (ℚ × List Nat) :=
  match input with
  | [] => some (0, [])
  | c :: rest =>
    if c = 0x2E then
      match rest with
      | [] => none
      | d :: rest2 =>
        if isDigit d then
          some ((digitsValue (d :: rest2.takeWhile isDigit) : ℚ) /
                  (10 : ℚ) ^ (rest2.takeWhile isDigit).length.succ,
                rest2.dropWhile isDigit)
        else none
    else some (0, c :: rest)

/-- The digits of an exponent, at least one. -/
def parseExpDigits (negative : Bool) (input : List Nat) : Option (ℤ × List Nat) :=
  match input with
  | [] => none
  | d :: rest =>
    if isDigit d then
      some (if negative then -(digitsValue (d :: rest.takeWhile isDigit) : ℤ)
            else (digitsValue (d :: rest.takeWhile isDigit) : ℤ),
            rest.dropWhile isDigit)
    else none

/-- The optional exponent of a JSON number: `e` or `E`, an optional sign, digits. -/
def parseExp (input : List Nat) : Option (ℤ × List Nat) :=
  match input with
  | [] => some (0, [])
  | c :: rest =>
    if c = 0x65 ∨ c = 0x45 then
      match rest with
      | [] => none
      | s :: rest2 =>
        if s = 0x2B then parseExpDigits false rest2
        else if s = 0x2D then parseExpDigits true rest2
        else parseExpDigits false (s :: rest2)
    else some (0, c :: rest)

/-- A JSON number without its sign. -/
def parseUnsigned (input : List Nat) : Option (ℚ × List Nat) :=
  match parseInt input with
  | none => none
  | some (i, r1) =>
    match parseFrac r1 with
    | none => none
    | some (f, r2) =>
      match parseExp r2 with
      | none => none
      | some (e, r3) => some (((i : ℚ) + f) * (10 : ℚ) ^ e, r3)

/-- The Number a decimal value becomes: a magnitude from 2^1024 - 2^970 on
rounds to an infinity (the largest double is 2^1024 - 2^971 and the value half
way to 2^1024 rounds up); the other values are kept exact. -/
def numberValue (q : ℚ) : JSValue :=
  if (2 : ℚ) ^ 1024 - (2 : ℚ) ^ 970 ≤ |q| then JSValue.infinity (decide (q < 0))
  else JSValue.number q

/-- A JSON number: an optional minus sign, integer part, fraction, exponent. -/
def parseNumber (input : List Nat) : Option (ℚ × List Nat) :=
  match input with
  | [] => none
  | c :: rest =>
    if c = 0x2D then
      match parseUnsigned rest with
      | some (q, r) => some (-q, r)
      | none => none
    else parseUnsigned (c :: rest)

/-- Defining a property on an object under construction: a key already present
keeps its place and takes the new value. -/
def setMember (ms : List (JSString × JSValue)) (k : JSString) (v : JSValue) :
    List (JSString × JSValue) :=
  match ms with
  | [] => [(k, v)]
  | (k0, v0) :: rest =>
    if k0 = k then (k0, v) :: rest else (k0, v0) :: setMember rest k v

/-- The object built from the members of an object literal, in text order. -/
def mkObject (ms : List (JSString × JSValue)) : JSValue :=
  JSValue.object (ms.foldl (fun acc kv => setMember acc kv.1 kv.2) [])

mutual
/-- One JSON value, white space before it skipped; `fuel` bounds the nesting. -/
def parseValue : Nat → List Nat → Option (JSValue × List Nat)
  | 0, _ => none
  | fuel + 1, input =>
    match skipWS input with
    | [] => none
    | c :: rest =>
      if c = 0x7B then
        match skipWS rest with
        | [] => none
        | d :: rest2 =>
          if d = 0x7D then some (JSValue.object [], rest2)
          else
            match parseMembers fuel (d :: rest2) with
            | some (ms, r) => some (mkObject ms, r)
            | none => none
      else if c = 0x5B then
        match skipWS rest with
        | [] => none
        | d :: rest2 =>
          if d = 0x5D then some (JSValue.array [], rest2)
          else
            match parseElements fuel (d :: rest2) with
            | some (vs, r) => some (JSValue.array vs, r)
            | none => none
      else if c = 0x22 then
        match parseStringBody rest with
        | some (s, r) => some (JSValue.string s, r)
        | none => none
      else if c = 0x74 then
        match rest with
        | x :: y :: z :: r =>
          if x = 0x72 ∧ y = 0x75 ∧ z = 0x65 then some (JSValue.bool true, r) else none
        | _ => none
      else if c = 0x66 then
        match rest with
        | w :: x :: y :: z :: r =>
          if w = 0x61 ∧ x = 0x6C ∧ y = 0x73 ∧ z = 0x65 then some (JSValue.bool false, r)
          else none
        | _ => none
      else if c = 0x6E then
        match rest with
        | x :: y :: z :: r =>
          if x = 0x75 ∧ y = 0x6C ∧ z = 0x6C then some (JSValue.null, r) else none
        | _ => none
      else
        match parseNumber (c :: rest) with
        | some (q, r) => some (numberValue q, r)
        | none => none
/-- The elements of a non-empty array, up to and including the closing bracket. -/
def parseElements : Nat → List Nat → Option (List JSValue × List Nat)
  | 0, _ => none
  | fuel + 1, input =>
    match parseValue fuel input with
    | none => none
    | some (v, rest) =>
      match skipWS rest with
      | [] => none
      | c :: rest2 =>
        if c = 0x2C then
          match parseElements fuel rest2 with
          | some (vs, r) => some (v :: vs, r)
          | none => none
        else if c = 0x5D then some ([v], rest2)
        else none
/-- The members of a non-empty object, up to and including the closing brace. -/
def parseMembers : Nat → List Nat → Option (List (JSString × JSValue) × List Nat)
  | 0, _ => none
  | fuel + 1, input =>
    match skipWS input with
    | [] => none
    | c :: rest =>
      if c = 0x22 then
        match parseStringBody rest with
        | none => none
        | some (k, r1) =>
          match skipWS r1 with
          | [] => none
          | c2 :: r2 =>
            if c2 = 0x3A then
              match parseValue fuel r2 with
              | none => none
              | some (v, r3) =>
                match skipWS r3 with
                | [] => none
                | c3 :: r4 =>
                  if c3 = 0x2C then
                    match parseMembers fuel r4 with
                    | some (ms, r) => some ((k, v) :: ms, r)
                    | none => none
                  else if c3 = 0x7D then some ([(k, v)], r4)
                  else none
            else none
      else none
end

/-- What a built-in throws. -/
inductive JSError where
  | syntaxError
  | quotaExceededError
deriving DecidableEq, Repr

/-- The call `JSON.parse(text)`: the value the whole text denotes, or a
SyntaxError.  Every recursive call of the parser follows at least one consumed
code unit within two steps, so the fuel given never runs out on a text. -/
def JSON.parse (text : JSString) : Except JSError JSValue :=
  match parseValue (2 * text.length + 1) text with
  | some (v, rest) =>
    if skipWS rest = [] then Except.ok v else Except.error JSError.syntaxError
  | none => Except.error JSError.syntaxError

/-! ## The application state and the environment -/

/-- The array `cardValues`. -/
def cardValues : List JSString :=
  [utf16 "0", utf16 "1", utf16 "2", utf16 "3", utf16 "5", utf16 "8", utf16 "13",
   utf16 "21", utf16 "34", utf16 "55", utf16 "89", utf16 "?", utf16 "☕"]

/-- The key the history is stored under. -/
def storageKey : JSString := utf16 "planningPokerHistory"

/-- The text of the dialog `deleteEstimation` opens. -/
def deleteMessage : JSString := utf16 "Are you sure you want to delete this estimation?"

/-- The text of the dialog `clearAllHistory` opens. -/
def clearAllMessage : JSString :=
  utf16 "Are you sure you want to clear all estimation history? This cannot be undone."

/-- The contents of `localStorage`: keys with their values. -/
abbrev Storage := List (JSString × JSString)

/-- The call `localStorage.getItem(key)`: the value, or `null`. -/
def getItem (st : Storage) (key : JSString) : Option JSString :=
  match st with
  | [] => none
  | (k, v) :: rest => if k = key then some v else getItem rest key

/-- The storage after a `localStorage.setItem(key, value)` that completes. -/
def setItem (st : Storage) (key value : JSString) : Storage :=
  match st with
  | [] => [(key, value)]
  | (k, v) :: rest => if k = key then (k, value) :: rest else (k, v) :: setItem rest key value

/-- A call the application makes to the browser that the user or the store can
observe: a `confirm` dialog, a `localStorage.setItem`. -/
inductive Effect where
  | confirm (message : JSString)
  | setItem (key value : JSString)
deriving DecidableEq, Repr

/-- What the environment answers during one event handler: the reading of
`Date.now()`, the text of `new Date().toLocaleString()`, the answer to
`confirm(...)`, and whether `localStorage.setItem` completes (it throws, for
instance QuotaExceededError, when `setItemOk` is false). -/
structure Env where
  now : Nat
  localeString : JSString
  confirmAnswer : Bool
  setItemOk : Bool
deriving DecidableEq, Repr

/-- The state the handlers read and write: `taskInput.value`, the variables
`currentTask`, `selectedCard` (`none` is `null`) and `estimationHistory`,
`saveBtn.disabled`, whether `taskInput` is `document.activeElement`, the
storage, and the calls made so far. -/
structure State where
  taskInput : JSString
  currentTask : JSString
  selectedCard : Option JSString
  estimationHistory : List Estimation
  saveBtnDisabled : Bool
  taskInputFocused : Bool
  localStorage : Storage
  effects : List Effect
deriving DecidableEq, Repr

/-! ## The functions of `app.js` -/

/-- The function `updateSaveButtonState`. -/
def updateSaveButtonState (s : State) : State :=
  { s with saveBtnDisabled := !(truthy (trim s.taskInput) && truthyOrNull s.selectedCard) }

/-- The function `selectCard` (the marking of the card element is presentation). -/
def selectCard (value : JSString) (s : State) : State :=
  updateSaveButtonState { s with selectedCard := some value }

/-- The function `saveHistoryToStorage`: `setItem` is called with the
serialised history; when it throws, the error is logged and the storage keeps
what it held. -/
def saveHistoryToStorage (env : Env) (s : State) : State :=
  { s with
    effects := s.effects ++ [Effect.setItem storageKey (JSON.stringify s.estimationHistory)]
    localStorage :=
      if env.setItemOk then
        setItem s.localStorage storageKey (JSON.stringify s.estimationHistory)
      else s.localStorage }

/-- The function `clearCurrentTask`. -/
def clearCurrentTask (s : State) : State :=
  { s with taskInput := [], selectedCard := none, saveBtnDisabled := true,
           taskInputFocused := true }

/-- The function `saveEstimation`. -/
def saveEstimation (env : Env) (s : State) : State :=
  if !truthy (trim s.taskInput) || !truthyOrNull s.selectedCard then s
  else
    match s.selectedCard with
    | none => s
    | some card =>
      clearCurrentTask (saveHistoryToStorage env
        { s with estimationHistory :=
            { id := JSNumber.int env.now, task := trim s.taskInput, estimate := card,
              timestamp := env.localeString } :: s.estimationHistory })

/-- The function `deleteEstimation`. -/
def deleteEstimation (env : Env) (id : JSNumber) (s : State) : State :=
  if env.confirmAnswer then
    saveHistoryToStorage env
      { s with effects := s.effects ++ [Effect.confirm deleteMessage]
               estimationHistory := s.estimationHistory.filter (fun item => !item.id.strictEquals id) }
  else { s with effects := s.effects ++ [Effect.confirm deleteMessage] }

/-- The function `clearAllHistory`. -/
def clearAllHistory (env : Env) (s : State) : State :=
  if s.estimationHistory.length = 0 then s
  else if env.confirmAnswer then
    saveHistoryToStorage env
      { s with effects := s.effects ++ [Effect.confirm clearAllMessage]
               estimationHistory := [] }
  else { s with effects := s.effects ++ [Effect.confirm clearAllMessage] }

/-- The function `loadHistoryFromStorage`, on the value the variable
`estimationHistory` holds: it keeps that value when nothing (or the empty
string) is stored, takes whatever `JSON.parse` returns otherwise, and becomes
the empty array when `JSON.parse` throws. -/
def loadHistoryFromStorage (localStorage : Storage) (estimationHistory : JSValue) : JSValue :=
  match getItem localStorage storageKey with
  | none => estimationHistory
  | some saved =>
    if truthy saved then
      match JSON.parse saved with
      | Except.ok v => v
      | Except.error _ => JSValue.array []
    else estimationHistory

/-- The function `updateTaskDisplay`. -/
def updateTaskDisplay (s : State) : State :=
  updateSaveButtonState
    { s with currentTask := if truthy (trim s.taskInput) then trim s.taskInput else [] }

/-- The click listener of the clear button. -/
def onClearClick (s : State) : State :=
  if truthyOrNull s.selectedCard || truthy (trim s.taskInput) then clearCurrentTask s else s

/-- The `keydown` listener of the document; the thirteen cards are rendered, so
`cards[cardIndex]` exists whenever `cardIndex` is not -1. -/
def onKeydown (env : Env) (key : JSString) (s : State) : State :=
  if s.taskInputFocused then s
  else
    let s1 := if cardValues.contains key then selectCard key s else s
    let s2 := if key = utf16 "Enter" ∧ s1.saveBtnDisabled = false then saveEstimation env s1 else s1
    if key = utf16 "Escape" then clearCurrentTask s2 else s2

/-! ## Event sequences -/

/-- What the user can do: edit the task field, click a rendered card, press a
key, click one of the buttons (the delete button of a record passes its id),
move the focus to or away from the task field. -/
inductive Event where
  | input (value : JSString)
  | cardClick (index : Fin 13)
  | keydown (key : JSString)
  | saveClick
  | clearClick
  | deleteClick (id : JSNumber)
  | clearHistoryClick
  | focusChange (onTaskInput : Bool)
deriving DecidableEq, Repr

/-- The listener an event runs. -/
def step (env : Env) (e : Event) (s : State) : State :=
  match e with
  | Event.input value => updateTaskDisplay { s with taskInput := value }
  | Event.cardClick index => selectCard (cardValues.getD index.val []) s
  | Event.keydown key => onKeydown env key s
  | Event.saveClick => saveEstimation env s
  | Event.clearClick => onClearClick s
  | Event.deleteClick id => deleteEstimation env id s
  | Event.clearHistoryClick => clearAllHistory env s
  | Event.focusChange onTaskInput => { s with taskInputFocused := onTaskInput }

/-- The state after a sequence of events, each with the answers of the
environment during its listener. -/
def run (events : List (Env × Event)) (s : State) : State :=
  events.foldl (fun acc ee => step ee.1 ee.2 acc) s

/-- A call of one of the three functions that change the history; a save is
made with the task field and the selection as the user left them. -/
inductive Op where
  | save (env : Env) (taskInput : JSString) (selectedCard : Option JSString)
  | delete (env : Env) (id : JSNumber)
  | clearAll (env : Env)
deriving DecidableEq, Repr

/-- The call an `Op` stands for. -/
def applyOp (op : Op) (s : State) : State :=
  match op with
  | Op.save env taskInput selectedCard =>
    saveEstimation env { s with taskInput := taskInput, selectedCard := selectedCard }
  | Op.delete env id => deleteEstimation env id s
  | Op.clearAll env => clearAllHistory env s

/-- The state after a sequence of calls. -/
def runOps (ops : List Op) (s : State) : State :=
  ops.foldl (fun acc op => applyOp op acc) s

/-- The clock readings given to the saves of a sequence, in order. -/
def saveClocks : List Op → List Nat
  | [] => []
  | Op.save env _ _ :: ops => env.now :: saveClocks ops
  | _ :: ops => saveClocks ops

/-- How many saves a sequence holds. -/
def countSaves : List Op → Nat
  | [] => 0
  | Op.save _ _ _ :: ops => countSaves ops + 1
  | _ :: ops => countSaves ops

/-- How many deletes a sequence holds. -/
def countDeletes : List Op → Nat
  | [] => 0
  | Op.delete _ _ :: ops => countDeletes ops + 1
  | _ :: ops => countDeletes ops

/-- A sequence of successful saves (task non-empty after trimming, a card
selected) and of confirmed deletes whose id is in the history when they are
called, started in state `s`. -/
def savesAndPresentDeletes : List Op → State → Bool
  | [], _ => true
  | Op.save env taskInput selectedCard :: ops, s =>
    truthy (trim taskInput) && truthyOrNull selectedCard &&
      savesAndPresentDeletes ops (applyOp (Op.save env taskInput selectedCard) s)
  | Op.delete env id :: ops, s =>
    env.confirmAnswer && s.estimationHistory.any (fun item => item.id.strictEquals id) &&
      savesAndPresentDeletes ops (applyOp (Op.delete env id) s)
  | Op.clearAll _ :: _, _ => false

/-- The initial state of the page: no card selected, empty history. -/
def initialState (localStorage : Storage) : State :=
  { taskInput := [], currentTask := [], selectedCard := none, estimationHistory := [],
    saveBtnDisabled := true, taskInputFocused := false, localStorage := localStorage,
    effects := [] }

/-! ## Predicates and sample data used in the statements -/

/-- The `setItem` calls among the calls made: the writes to storage. -/
def writes : List Effect → List (JSString × JSString)
  | [] => []
  | Effect.setItem key value :: es => (key, value) :: writes es
  | Effect.confirm _ :: es => writes es

/-- The `confirm` dialogs among the calls made. -/
def prompts : List Effect → List JSString
  | [] => []
  | Effect.confirm message :: es => message :: prompts es
  | Effect.setItem _ _ :: es => prompts es

/-- Card-set membership: the selection is `null` or one of `cardValues`, and
the estimate of every record of the history is one of `cardValues`. -/
def cardSetInvariant (s : State) : Prop :=
  (s.selectedCard = none ∨ ∃ c ∈ cardValues, s.selectedCard = some c) ∧
  ∀ r ∈ s.estimationHistory, r.estimate ∈ cardValues

/-- An id that is an integer of magnitude below 10^21: the numbers whose text
`Number::toString` writes as plain decimal digits. -/
def integerBelow1e21 (x : JSNumber) : Prop :=
  ∃ n : Int, x = JSNumber.int n ∧ -(10 : Int) ^ 21 < n ∧ n < (10 : Int) ^ 21

/-- The id `a` is a later clock reading than the id `b`. -/
def laterReading (a b : JSNumber) : Prop :=
  ∃ m n : Nat, a = JSNumber.int m ∧ b = JSNumber.int n ∧ n < m

/-- The id `x` is a clock reading earlier than `bound`. -/
def readingBelow (bound : Nat) (x : JSNumber) : Prop :=
  ∃ n : Nat, x = JSNumber.int n ∧ n < bound

/-- A record whose id is `Infinity`, as a stored `1e400` loads. -/
def infiniteIdRecord : Estimation :=
  { id := JSNumber.infinity false, task := utf16 "Fix bug", estimate := utf16 "3",
    timestamp := utf16 "11/4/2026, 9:00:00 PM" }

/-- An environment that confirms every dialog and whose storage accepts every
write, at clock reading `now`. -/
def sampleEnv (now : Nat) : Env :=
  { now := now, localeString := utf16 "11/4/2026, 9:00:00 PM", confirmAnswer := true,
    setItemOk := true }

/-- An environment whose storage refuses the write (`setItem` throws). -/
def fullStorageEnv (now : Nat) : Env :=
  { now := now, localeString := utf16 "11/4/2026, 9:00:00 PM", confirmAnswer := true,
    setItemOk := false }

/-- An environment in which the user declines the dialog. -/
def decliningEnv (now : Nat) : Env :=
  { now := now, localeString := utf16 "11/4/2026, 9:00:00 PM", confirmAnswer := false,
    setItemOk := true }

/-- A record saved at clock reading `now`. -/
def sampleRecord (now : Nat) (task estimate : String) : Estimation :=
  { id := JSNumber.int now, task := utf16 task, estimate := utf16 estimate,
    timestamp := utf16 "11/4/2026, 9:00:00 PM" }

/-- A state with the task field filled, a card selected and a given history. -/
def sampleState (task : String) (card : Option String) (history : List Estimation) : State :=
  { taskInput := utf16 task, currentTask := trim (utf16 task),
    selectedCard := card.map utf16, estimationHistory := history,
    saveBtnDisabled := false, taskInputFocused := false, localStorage := [], effects := [] }

/-- Two saves made at the same clock reading 5. -/
def sameTickSaves : List Op :=
  [Op.save (sampleEnv 5) (utf16 "Design login page") (some (utf16 "5")),
   Op.save (sampleEnv 5) (utf16 "Fix bug") (some (utf16 "3"))]

/-- Two saves at the clock readings 5 and 6, then the delete of the first. -/
def saveSaveDelete : List Op :=
  [Op.save (sampleEnv 5) (utf16 "Design login page") (some (utf16 "5")),
   Op.save (sampleEnv 6) (utf16 "Fix bug") (some (utf16 "3")),
   Op.delete (sampleEnv 7) (JSNumber.int 5)]

/-- Two saves made at the same clock reading 5, then the delete of id 5. -/
def sameTickSavesThenDelete : List Op :=
  sameTickSaves ++ [Op.delete (sampleEnv 7) (JSNumber.int 5)]

/-- Two records that carry the same id. -/
def sameIdHistory : List Estimation :=
  [sampleRecord 5 "Fix bug" "3", sampleRecord 5 "Design login page" "5"]

/-- The same two saves as events of the page, both listeners reading the
clock at 5: type a task, click the card `5`, click save, type another task,
click the card `3`, click save. -/
def sameTickSession : List (Env × Event) :=
  [(sampleEnv 5, Event.input (utf16 "Design login page")),
   (sampleEnv 5, Event.cardClick 4),
   (sampleEnv 5, Event.saveClick),
   (sampleEnv 5, Event.input (utf16 "Fix bug")),
   (sampleEnv 5, Event.cardClick 3),
   (sampleEnv 5, Event.saveClick)]

/-- A user session: type a task, press a card key, press Enter, type again,
click a card, click save, delete the first record. -/
def sampleSession : List (Env × Event) :=
  [(sampleEnv 1, Event.input (utf16 " Design login page ")),
   (sampleEnv 2, Event.keydown (utf16 "5")),
   (sampleEnv 3, Event.keydown (utf16 "Enter")),
   (sampleEnv 4, Event.input (utf16 "Fix bug")),
   (sampleEnv 5, Event.cardClick 12),
   (sampleEnv 6, Event.saveClick),
   (sampleEnv 7, Event.deleteClick (JSNumber.int 3))]

/-! ## Lemmas on the JSON model -/

theorem hexVal_hexDigit (n : Nat) (h : n < 16) : hexVal (hexDigit n) = some n := by
  interval_cases n <;> rfl

theorem parseStringBody_closing (rest : List Nat) :
    parseStringBody (0x22 :: rest) = some ([], rest) := by
  rw [parseStringBody.eq_def]; simp

theorem parseStringBody_unicodeEscape (c : Nat) (h : c < 65536) (rest : List Nat) :
    parseStringBody (unicodeEscape c ++ rest) =
      (parseStringBody rest).map (fun sr => (c :: sr.1, sr.2)) := by
  have h1 := hexVal_hexDigit (c / 4096 % 16) (Nat.mod_lt _ (by decide))
  have h2 := hexVal_hexDigit (c / 256 % 16) (Nat.mod_lt _ (by decide))
  have h3 := hexVal_hexDigit (c / 16 % 16) (Nat.mod_lt _ (by decide))
  have h4 := hexVal_hexDigit (c % 16) (Nat.mod_lt _ (by decide))
  have hc : c / 4096 % 16 * 4096 + c / 256 % 16 * 256 + c / 16 % 16 * 16 + c % 16 = c := by
    omega
  show parseStringBody (0x5C :: 0x75 :: hexDigit (c / 4096 % 16) :: hexDigit (c / 256 % 16) ::
    hexDigit (c / 16 % 16) :: hexDigit (c % 16) :: rest) = _
  rw [parseStringBody.eq_def]
  simp only [h1, h2, h3, h4]
  rcases parseStringBody rest with _ | ⟨s, r⟩
  · simp
  · simp [hc]

theorem parseStringBody_escaped (e u : Nat) (h : unescape e = some u) (he : e ≠ 0x75)
    (rest : List Nat) :
    parseStringBody (0x5C :: e :: rest) =
      (parseStringBody rest).map (fun sr => (u :: sr.1, sr.2)) := by
  rw [parseStringBody.eq_def]
  simp only [he, h, if_false]
  rcases parseStringBody rest with _ | ⟨s, r⟩ <;> simp

theorem parseStringBody_plain (c : Nat) (h1 : c ≠ 0x22) (h2 : c ≠ 0x5C) (h3 : ¬ c < 0x20)
    (rest : List Nat) :
    parseStringBody (c :: rest) =
      (parseStringBody rest).map (fun sr => (c :: sr.1, sr.2)) := by
  rw [parseStringBody.eq_def]
  simp only [h1, h2, h3, if_false]
  rcases parseStringBody rest with _ | ⟨s, r⟩ <;> simp

theorem parseStringBody_quoteCodeUnit (c : Nat) (rest : List Nat) :
    parseStringBody (quoteCodeUnit c ++ rest) =
      (parseStringBody rest).map (fun sr => (c :: sr.1, sr.2)) := by
  unfold quoteCodeUnit
  split_ifs with h1 h2 h3 h4 h5 h6 h7 h8
  · exact parseStringBody_escaped _ _ (by subst h1; rfl) (by decide) rest
  · exact parseStringBody_escaped _ _ (by subst h2; rfl) (by decide) rest
  · exact parseStringBody_escaped _ _ (by subst h3; rfl) (by decide) rest
  · exact parseStringBody_escaped _ _ (by subst h4; rfl) (by decide) rest
  · exact parseStringBody_escaped _ _ (by subst h5; rfl) (by decide) rest
  · exact parseStringBody_escaped _ _ (by subst h6; rfl) (by decide) rest
  · exact parseStringBody_escaped _ _ (by subst h7; rfl) (by decide) rest
  · apply parseStringBody_unicodeEscape
    simp [isLeadingSurrogate, isTrailingSurrogate] at h8
    omega
  · simp [isLeadingSurrogate, isTrailingSurrogate] at h8
    exact parseStringBody_plain c h6 h7 (by omega) rest

/-- Reading back a quoted string body: the closing quote ends it. -/
theorem parseStringBody_quoteBody (s : JSString) (rest : List Nat) :
    parseStringBody (quoteBody s ++ 0x22 :: rest) = some (s, rest) := by
  induction s using quoteBody.induct with
  | case1 => simp [quoteBody, parseStringBody_closing]
  | case2 c =>
    rw [quoteBody, parseStringBody_quoteCodeUnit, parseStringBody_closing]
    rfl
  | case3 c d tl hcd ih =>
    simp only [Bool.and_eq_true] at hcd
    have hc : c ≠ 0x22 ∧ c ≠ 0x5C ∧ ¬ c < 0x20 := by
      have := hcd.1; simp [isLeadingSurrogate] at this; omega
    have hd : d ≠ 0x22 ∧ d ≠ 0x5C ∧ ¬ d < 0x20 := by
      have := hcd.2; simp [isTrailingSurrogate] at this; omega
    rw [quoteBody]
    simp only [hcd.1, hcd.2, Bool.and_self, if_true, List.cons_append]
    rw [parseStringBody_plain c hc.1 hc.2.1 hc.2.2, parseStringBody_plain d hd.1 hd.2.1 hd.2.2, ih]
    rfl
  | case4 c d tl hcd ih =>
    rw [quoteBody]
    simp only [hcd, Bool.false_eq_true, if_false, List.append_assoc]
    rw [parseStringBody_quoteCodeUnit, ih]
    rfl

theorem decimalDigits_spec (fuel : Nat) :
    ∀ (n : Nat) (acc : List Nat), n < fuel →
      ∃ d ds, decimalDigits fuel n acc = (d :: ds) ++ acc ∧ isDigit d = true ∧
        (∀ x ∈ ds, isDigit x = true) ∧ (n ≠ 0 → d ≠ 48) ∧ (n = 0 → d = 48 ∧ ds = []) ∧
        ∀ a, (d :: ds).foldl (fun acc d => 10 * acc + (d - 48)) a = a * 10 ^ (ds.length + 1) + n := by
  induction fuel with
  | zero => intro n acc h; omega
  | succ fuel ih =>
    intro n acc h
    rw [decimalDigits]
    by_cases h10 : n / 10 = 0
    · have hn : n < 10 := by omega
      refine ⟨48 + n % 10, [], by simp [h10], ?_, by simp, ?_, ?_, ?_⟩
      · simp [isDigit]; omega
      · intro h0; omega
      · intro h0; subst h0; simp
      · intro a; simp; omega
    · obtain ⟨d, ds, heq, hd, hds, hne, _, hval⟩ :=
        ih (n / 10) ((48 + n % 10) :: acc) (by omega)
      refine ⟨d, ds ++ [48 + n % 10], by simp [h10, heq], hd, ?_, fun _ => hne h10, ?_, ?_⟩
      · intro x hx
        rcases List.mem_append.mp hx with hx | hx
        · exact hds x hx
        · simp only [List.mem_singleton] at hx
          subst hx; simp [isDigit]; omega
      · intro h0; subst h0; simp at h10
      · intro a
        have := hval a
        simp only [List.foldl_cons] at this
        simp only [List.foldl_cons, List.foldl_append, List.foldl_nil, this, List.length_append, List.length_singleton]
        have hp : 10 ^ (ds.length + 1 + 1) = 10 ^ (ds.length + 1) * 10 := pow_succ _ _
        rw [hp, ← Nat.mul_assoc]
        generalize a * 10 ^ (ds.length + 1) = Q
        omega

theorem takeWhile_digits (ds : List Nat) (c : Nat) (t : List Nat)
    (hds : ∀ x ∈ ds, isDigit x = true) (hc : isDigit c = false) :
    (ds ++ c :: t).takeWhile isDigit = ds ∧ (ds ++ c :: t).dropWhile isDigit = c :: t := by
  induction ds with
  | nil => simp [List.takeWhile, List.dropWhile, hc]
  | cons d ds ih =>
    have hd := hds d (List.mem_cons_self _ _)
    have := ih (fun x hx => hds x (List.mem_cons_of_mem _ hx))
    simp [List.takeWhile, List.dropWhile, hd, this]

/-- Reading back the digits of a natural number, when what follows is not part
of a number. -/
theorem numberToString_shape (n : Nat) :
    ∃ d ds, numberToString n = d :: ds ∧ isDigit d = true := by
  obtain ⟨d, ds, heq, hd, -⟩ := decimalDigits_spec (n + 1) n [] (by omega)
  exact ⟨d, ds, by simp [numberToString, heq], hd⟩

/-- Reading back the digits of a natural number, when what follows is not part
of a number. -/
theorem parseUnsigned_numberToString (n c : Nat) (t : List Nat)
    (hc : isDigit c = false) (h1 : c ≠ 0x2E) (h2 : c ≠ 0x65) (h3 : c ≠ 0x45) :
    parseUnsigned (numberToString n ++ c :: t) = some ((n : ℚ), c :: t) := by
  obtain ⟨d, ds, heq, hd, hds, hne, h0, hval⟩ := decimalDigits_spec (n + 1) n [] (by omega)
  have hfrac : parseFrac (c :: t) = some (0, c :: t) := by simp [parseFrac, h1]
  have hexp : parseExp (c :: t) = some (0, c :: t) := by simp [parseExp, h2, h3]
  have hint : parseInt ((d :: ds) ++ c :: t) = some (n, c :: t) := by
    by_cases hn : n = 0
    · obtain ⟨rfl, rfl⟩ := h0 hn
      simp [parseInt, hn]
    · have tw := takeWhile_digits ds c t hds hc
      have v := hval 0
      simp only [List.cons_append, parseInt, hne hn, hd, if_true, if_false, tw.1, tw.2, digitsValue]
      simp [v]
  simp only [numberToString, heq, List.append_nil]
  rw [parseUnsigned, hint]
  simp [hfrac, hexp]

/-- Reading back the text of an integer, when what follows is not part of a
number. -/
theorem parseNumber_integerToString (n : Int) (c : Nat) (t : List Nat)
    (hc : isDigit c = false) (h1 : c ≠ 0x2E) (h2 : c ≠ 0x65) (h3 : c ≠ 0x45) :
    parseNumber (integerToString n ++ c :: t) = some ((n : ℚ), c :: t) := by
  have hu := parseUnsigned_numberToString n.natAbs c t hc h1 h2 h3
  by_cases hneg : n < 0
  · have hcast : ((n.natAbs : ℕ) : ℚ) = -(n : ℚ) := by
      have h : (n.natAbs : ℤ) = -n := by omega
      have h2 : (((n.natAbs : ℕ) : ℤ) : ℚ) = ((-n : ℤ) : ℚ) := by rw [h]
      rw [Int.cast_natCast, Int.cast_neg] at h2
      exact h2
    simp only [integerToString, hneg, if_true, List.cons_append]
    rw [parseNumber]
    simp [hu, hcast]
  · have hcast : ((n.natAbs : ℕ) : ℚ) = (n : ℚ) := by
      have h : (n.natAbs : ℤ) = n := by omega
      have h2 : (((n.natAbs : ℕ) : ℤ) : ℚ) = (n : ℚ) := by rw [h]
      rw [Int.cast_natCast] at h2
      exact h2
    obtain ⟨d, ds, heq, hd⟩ := numberToString_shape n.natAbs
    have hminus : d ≠ 0x2D := by
      intro h; subst h; simp [isDigit] at hd
    simp only [integerToString, hneg, if_false]
    rw [heq] at hu ⊢
    rw [List.cons_append] at hu ⊢
    rw [parseNumber]
    simp only [hminus, if_false, hu, hcast]

theorem numberValue_integer (n : Int) (hlo : -(10 : Int) ^ 21 < n) (hhi : n < (10 : Int) ^ 21) :
    numberValue (n : ℚ) = JSValue.number (n : ℚ) := by
  have h1 : -(10 : ℚ) ^ 21 < (n : ℚ) := by exact_mod_cast hlo
  have h2 : (n : ℚ) < (10 : ℚ) ^ 21 := by exact_mod_cast hhi
  have habs : |(n : ℚ)| < (10 : ℚ) ^ 21 := abs_lt.mpr ⟨h1, h2⟩
  have hbig : (10 : ℚ) ^ 21 ≤ (2 : ℚ) ^ 1024 - (2 : ℚ) ^ 970 := by norm_num
  have : ¬ ((2 : ℚ) ^ 1024 - (2 : ℚ) ^ 970 ≤ |(n : ℚ)|) := not_le.mpr (lt_of_lt_of_le habs hbig)
  simp only [numberValue, this, if_false]

theorem skipWS_cons (c : Nat) (r : List Nat) (h : isJSONWhiteSpace c = false) :
    skipWS (c :: r) = c :: r := by
  simp [skipWS, List.dropWhile, h]

theorem parseValue_string (fuel : Nat) (s : JSString) (t : List Nat) :
    parseValue (fuel + 1) (quoteJSONString s ++ t) = some (JSValue.string s, t) := by
  have e : quoteJSONString s ++ t = 0x22 :: (quoteBody s ++ 0x22 :: t) := by
    simp [quoteJSONString]
  rw [e, parseValue, skipWS_cons _ _ (by decide)]
  simp [parseStringBody_quoteBody]

theorem integerToString_shape (n : Int) :
    ∃ d ds, integerToString n = d :: ds ∧ (d = 0x2D ∨ isDigit d = true) := by
  obtain ⟨d, ds, heq, hd⟩ := numberToString_shape n.natAbs
  by_cases hneg : n < 0
  · exact ⟨0x2D, numberToString n.natAbs, by simp [integerToString, hneg], Or.inl rfl⟩
  · exact ⟨d, ds, by simp [integerToString, hneg, heq], Or.inr hd⟩

/-- Reading back the id of a record, an integer of magnitude below 10^21. -/
theorem parseValue_number (fuel : Nat) (x : JSNumber) (hx : integerBelow1e21 x) (t : List Nat) :
    parseValue (fuel + 1) (serializeNumber x ++ 0x2C :: t) = some (x.toJS, 0x2C :: t) := by
  obtain ⟨n, rfl, hlo, hhi⟩ := hx
  have hp := parseNumber_integerToString n 0x2C t (by decide) (by decide) (by decide) (by decide)
  obtain ⟨d, ds, heq, hd⟩ := integerToString_shape n
  simp only [serializeNumber, JSNumber.toJS]
  rw [heq] at hp ⊢
  rw [List.cons_append] at hp ⊢
  have hrange : d = 0x2D ∨ (48 ≤ d ∧ d ≤ 57) := by
    rcases hd with h | h
    · exact Or.inl h
    · simp only [isDigit, Bool.and_eq_true, decide_eq_true_eq] at h; exact Or.inr h
  rw [parseValue, skipWS_cons _ _ (by simp [isJSONWhiteSpace]; omega)]
  have h1 : d ≠ 0x7B := by omega
  have h2 : d ≠ 0x5B := by omega
  have h3 : d ≠ 0x22 := by omega
  have h4 : d ≠ 0x74 := by omega
  have h5 : d ≠ 0x66 := by omega
  have h6 : d ≠ 0x6E := by omega
  simp only [h1, h2, h3, h4, h5, h6, if_false, hp, numberValue_integer n hlo hhi]

theorem parseMembers_comma (fuel : Nat) (k : JSString) (text : List Nat) (v : JSValue)
    (t : List Nat) (hv : parseValue fuel (text ++ 0x2C :: t) = some (v, 0x2C :: t)) :
    parseMembers (fuel + 1) (quoteJSONString k ++ 0x3A :: (text ++ 0x2C :: t)) =
      (parseMembers fuel t).map (fun mr => ((k, v) :: mr.1, mr.2)) := by
  have e : quoteJSONString k ++ 0x3A :: (text ++ 0x2C :: t) =
      0x22 :: (quoteBody k ++ 0x22 :: 0x3A :: (text ++ 0x2C :: t)) := by
    simp [quoteJSONString]
  rw [e, parseMembers, skipWS_cons _ _ (by decide)]
  simp only [if_true, parseStringBody_quoteBody, skipWS_cons 0x3A _ (by decide), hv,
    skipWS_cons 0x2C _ (by decide)]
  rcases parseMembers fuel t with _ | ⟨ms, r⟩ <;> simp

theorem parseMembers_last (fuel : Nat) (k : JSString) (text : List Nat) (v : JSValue)
    (t : List Nat) (hv : parseValue fuel (text ++ 0x7D :: t) = some (v, 0x7D :: t)) :
    parseMembers (fuel + 1) (quoteJSONString k ++ 0x3A :: (text ++ 0x7D :: t)) =
      some ([(k, v)], t) := by
  have e : quoteJSONString k ++ 0x3A :: (text ++ 0x7D :: t) =
      0x22 :: (quoteBody k ++ 0x22 :: 0x3A :: (text ++ 0x7D :: t)) := by
    simp [quoteJSONString]
  rw [e, parseMembers, skipWS_cons _ _ (by decide)]
  simp [parseStringBody_quoteBody, skipWS_cons 0x3A _ (by decide), hv,
    skipWS_cons 0x7D _ (by decide)]

theorem mkObject_estimation (a b c d : JSValue) :
    mkObject [(utf16 "id", a), (utf16 "task", b), (utf16 "estimate", c), (utf16 "timestamp", d)] =
      JSValue.object
        [(utf16 "id", a), (utf16 "task", b), (utf16 "estimate", c), (utf16 "timestamp", d)] := by
  have h1 : utf16 "id" ≠ utf16 "task" := by decide
  have h2 : utf16 "id" ≠ utf16 "estimate" := by decide
  have h3 : utf16 "id" ≠ utf16 "timestamp" := by decide
  have h4 : utf16 "task" ≠ utf16 "estimate" := by decide
  have h5 : utf16 "task" ≠ utf16 "timestamp" := by decide
  have h6 : utf16 "estimate" ≠ utf16 "timestamp" := by decide
  simp [mkObject, setMember, h1, h2, h3, h4, h5, h6]

theorem parseValue_object (fuel : Nat) (k : JSString) (r : List Nat) :
    parseValue (fuel + 1) (0x7B :: (quoteJSONString k ++ r)) =
      (parseMembers fuel (quoteJSONString k ++ r)).map (fun mr => (mkObject mr.1, mr.2)) := by
  have e : quoteJSONString k ++ r = 0x22 :: (quoteBody k ++ 0x22 :: r) := by
    simp [quoteJSONString]
  rw [e, parseValue, skipWS_cons _ _ (by decide)]
  simp only [if_true]
  rw [skipWS_cons _ _ (by decide)]
  simp only [show ((0x22 : Nat) = 0x7D) = False by simp, if_false]
  rcases parseMembers fuel (0x22 :: (quoteBody k ++ 0x22 :: r)) with _ | ⟨ms, r⟩ <;> simp

/-- Reading back one serialised record. -/
theorem parseValue_stringifyEstimation (fuel : Nat) (e : Estimation) (t : List Nat)
    (hid : integerBelow1e21 e.id) :
    parseValue (fuel + 6) (stringifyEstimation e ++ t) = some (e.toJS, t) := by
  have hshape : stringifyEstimation e ++ t =
      0x7B :: (quoteJSONString (utf16 "id") ++ 0x3A :: (serializeNumber e.id ++ 0x2C ::
        (quoteJSONString (utf16 "task") ++ 0x3A :: (quoteJSONString e.task ++ 0x2C ::
        (quoteJSONString (utf16 "estimate") ++ 0x3A :: (quoteJSONString e.estimate ++ 0x2C ::
        (quoteJSONString (utf16 "timestamp") ++ 0x3A ::
          (quoteJSONString e.timestamp ++ 0x7D :: t)))))))) := by
    simp [stringifyEstimation]
  rw [hshape, parseValue_object (fuel + 5)]
  rw [parseMembers_comma (fuel + 4) _ _ _ _ (parseValue_number (fuel + 3) _ hid _)]
  rw [parseMembers_comma (fuel + 3) _ _ _ _ (parseValue_string (fuel + 2) _ _)]
  rw [parseMembers_comma (fuel + 2) _ _ _ _ (parseValue_string (fuel + 1) _ _)]
  rw [parseMembers_last (fuel + 1) _ _ _ _ (parseValue_string fuel _ _)]
  simp only [Option.map_some', mkObject_estimation]
  rfl

theorem stringifyEstimation_shape (e : Estimation) :
    ∃ r, stringifyEstimation e = 0x7B :: r ∧ 1 ≤ r.length := by
  refine ⟨_, by simp only [stringifyEstimation, List.singleton_append, List.cons_append]; rfl, ?_⟩
  simp only [List.length_append, List.length_singleton]
  omega

theorem stringifyElements_shape (e : Estimation) (es : List Estimation) :
    ∃ r, stringifyElements (e :: es) = 0x7B :: r ∧ es.length + 1 ≤ r.length := by
  induction es generalizing e with
  | nil => simpa [stringifyElements] using stringifyEstimation_shape e
  | cons e2 es ih =>
    obtain ⟨r1, h1, hl1⟩ := stringifyEstimation_shape e
    obtain ⟨r2, h2, hlen⟩ := ih e2
    refine ⟨r1 ++ [0x2C] ++ stringifyElements (e2 :: es), by simp [stringifyElements, h1], ?_⟩
    simp [h2]
    omega

/-- Reading back the elements of a serialised non-empty history. -/
theorem parseElements_stringifyElements (es : List Estimation) :
    ∀ (e : Estimation) (fuel : Nat) (t : List Nat), es.length + 7 ≤ fuel →
      (∀ r ∈ e :: es, integerBelow1e21 r.id) →
      parseElements fuel (stringifyElements (e :: es) ++ 0x5D :: t) =
        some ((e :: es).map Estimation.toJS, t) := by
  induction es with
  | nil =>
    intro e fuel t h hids
    obtain ⟨g, rfl⟩ : ∃ g, fuel = g + 6 + 1 := ⟨fuel - 7, by simp at h; omega⟩
    rw [stringifyElements, parseElements,
      parseValue_stringifyEstimation _ _ _ (hids e (List.mem_cons_self _ _))]
    simp [skipWS_cons 0x5D t (by decide)]
  | cons e2 es ih =>
    intro e fuel t h hids
    obtain ⟨g, rfl⟩ : ∃ g, fuel = g + 6 + 1 := ⟨fuel - 7, by simp at h; omega⟩
    have e1 : stringifyElements (e :: e2 :: es) ++ 0x5D :: t =
        stringifyEstimation e ++ 0x2C :: (stringifyElements (e2 :: es) ++ 0x5D :: t) := by
      simp [stringifyElements]
    rw [e1, parseElements,
      parseValue_stringifyEstimation _ _ _ (hids e (List.mem_cons_self _ _))]
    simp only [skipWS_cons 0x2C _ (by decide), if_true]
    rw [ih e2 (g + 6) t (by simp at h ⊢; omega)
      (fun r hr => hids r (List.mem_cons_of_mem _ hr))]
    simp

/-- The parser reads back what `JSON.stringify` wrote for a history whose ids
are integers of magnitude below 10^21. -/
theorem parse_stringify (h : List Estimation) (hids : ∀ r ∈ h, integerBelow1e21 r.id) :
    JSON.parse (JSON.stringify h) = Except.ok (historyToJS h) := by
  cases h with
  | nil => rfl
  | cons e es =>
    obtain ⟨r, hr, hlen⟩ := stringifyElements_shape e es
    have hlen2 : (JSON.stringify (e :: es)).length = r.length + 3 := by
      simp [JSON.stringify, hr]
    have htext : JSON.stringify (e :: es) = 0x5B :: (stringifyElements (e :: es) ++ 0x5D :: []) := by
      simp [JSON.stringify]
    rw [JSON.parse, hlen2, htext, parseValue, skipWS_cons _ _ (by decide)]
    simp only [show ((0x5B : Nat) = 0x7B) = False by simp, if_false, if_true]
    rw [hr, List.cons_append, skipWS_cons _ _ (by decide)]
    simp only [show ((0x7B : Nat) = 0x5D) = False by simp, if_false]
    rw [← List.cons_append, ← hr, parseElements_stringifyElements es e _ [] (by omega) hids]
    simp [skipWS, historyToJS]

/-! ## Lemmas on the storage and on the functions -/

theorem getItem_setItem (st : Storage) (key value : JSString) :
    getItem (setItem st key value) key = some value := by
  induction st with
  | nil => simp [setItem, getItem]
  | cons kv st ih =>
    obtain ⟨k, v⟩ := kv
    by_cases h : k = key
    · simp [setItem, getItem, h]
    · simp [setItem, getItem, h, ih]

theorem writes_append (xs ys : List Effect) : writes (xs ++ ys) = writes xs ++ writes ys := by
  induction xs with
  | nil => rfl
  | cons x xs ih => cases x <;> simp [writes, ih]

theorem prompts_append (xs ys : List Effect) : prompts (xs ++ ys) = prompts xs ++ prompts ys := by
  induction xs with
  | nil => rfl
  | cons x xs ih => cases x <;> simp [prompts, ih]

theorem truthy_eq_true_iff (s : JSString) : truthy s = true ↔ s ≠ [] := by
  cases s <;> simp [truthy]

theorem trim_whiteSpace (s : JSString) (h : ∀ c ∈ s, isWhiteSpace c = true) : trim s = [] := by
  have : s.dropWhile isWhiteSpace = [] := by
    rw [List.dropWhile_eq_nil_iff]; exact h
  simp [trim, this, List.rdropWhile]

theorem saveEstimation_history (env : Env) (s : State) :
    (saveEstimation env s).estimationHistory = s.estimationHistory ∨
    ∃ r : Estimation, r.id = JSNumber.int env.now ∧ (∃ card, s.selectedCard = some card ∧ r.estimate = card) ∧
      (saveEstimation env s).estimationHistory = r :: s.estimationHistory := by
  unfold saveEstimation
  split_ifs with h
  · exact Or.inl rfl
  · rcases hc : s.selectedCard with _ | card
    · exact Or.inl rfl
    · exact Or.inr ⟨_, rfl, ⟨card, rfl, rfl⟩, rfl⟩

theorem deleteEstimation_history (env : Env) (id : JSNumber) (s : State) :
    (deleteEstimation env id s).estimationHistory =
      if env.confirmAnswer then
        s.estimationHistory.filter (fun item => !item.id.strictEquals id)
      else s.estimationHistory := by
  unfold deleteEstimation
  split_ifs <;> rfl

theorem clearAllHistory_history (env : Env) (s : State) :
    (clearAllHistory env s).estimationHistory = s.estimationHistory ∨
    (clearAllHistory env s).estimationHistory = [] := by
  unfold clearAllHistory
  split_ifs
  · exact Or.inl rfl
  · exact Or.inr rfl
  · exact Or.inl rfl

/-! ## The claims -/

/-- C1. `saveEstimation` is the append of the specification.  For every state
whose selection is `null` or a non-empty string (every card label is
non-empty): when the trimmed task input is empty or no card is selected the
state is returned unchanged (history, stored value, selection, and no call is
made); otherwise the new history is one new record in front of the old history,
whose task is the trimmed task input, whose estimate is the selected card and
whose id is the clock reading, the serialised new history is handed to
`setItem`, and afterwards the task input is empty and no card is selected. -/
theorem saveEstimation_is_append (env : Env) (s : State) (hsel : s.selectedCard ≠ some []) :
    ((trim s.taskInput = [] ∨ s.selectedCard = none) →
      (saveEstimation env s).estimationHistory = s.estimationHistory ∧
      (saveEstimation env s).localStorage = s.localStorage ∧
      (saveEstimation env s).selectedCard = s.selectedCard ∧
      saveEstimation env s = s) ∧
    (¬ (trim s.taskInput = [] ∨ s.selectedCard = none) →
      ∃ card, s.selectedCard = some card ∧
        (saveEstimation env s).estimationHistory =
          { id := JSNumber.int env.now, task := trim s.taskInput, estimate := card,
            timestamp := env.localeString } :: s.estimationHistory ∧
        (saveEstimation env s).taskInput = [] ∧
        (saveEstimation env s).selectedCard = none ∧
        writes (saveEstimation env s).effects = writes s.effects ++
          [(storageKey, JSON.stringify (saveEstimation env s).estimationHistory)]) := by
  constructor
  · intro h
    have : saveEstimation env s = s := by
      unfold saveEstimation
      rcases h with h | h
      · simp [truthy, h]
      · simp [h, truthyOrNull]
    simp [this]
  · intro h
    rw [not_or] at h
    obtain ⟨ht, hc⟩ := h
    rcases hcard : s.selectedCard with _ | card
    · exact absurd hcard hc
    · have hne : card ≠ [] := by
        intro e; apply hsel; rw [hcard, e]
      refine ⟨card, rfl, ?_⟩
      have h1 : truthy (trim s.taskInput) = true := (truthy_eq_true_iff _).2 ht
      have h2 : truthy card = true := (truthy_eq_true_iff _).2 hne
      simp [saveEstimation, hcard, truthyOrNull, h1, h2, clearCurrentTask, saveHistoryToStorage,
        writes_append, writes]

/-- C1, at a concrete state: saving "Fix bug" with card 3 in front of one record. -/
theorem saveEstimation_is_append_witness :
    (saveEstimation (sampleEnv 9)
        (sampleState " Fix bug " (some "3") [sampleRecord 5 "Design login page" "5"])).estimationHistory
      = [sampleRecord 9 "Fix bug" "3", sampleRecord 5 "Design login page" "5"] := by
  obtain ⟨card, hc, hh, -⟩ :=
    (saveEstimation_is_append (sampleEnv 9)
      (sampleState " Fix bug " (some "3") [sampleRecord 5 "Design login page" "5"])
      (by decide)).2 (by decide)
  rw [hh]
  have : card = utf16 "3" := by
    have h3 : (sampleState " Fix bug " (some "3")
        [sampleRecord 5 "Design login page" "5"]).selectedCard = some (utf16 "3") := rfl
    rw [h3] at hc
    exact (Option.some.inj hc).symm
  subst this
  decide

/-- C6. Save permission as `updateSaveButtonState` computes it.  For every task
text and every selection that is unset or one of the thirteen card labels, the
save button is enabled exactly when the task is non-empty after trimming and a
card is selected; for every selection whatever, a task made of white space only
leaves it disabled, and so does an unset selection whatever the task. -/
theorem updateSaveButtonState_canSave (s : State) :
    ((s.selectedCard = none ∨ ∃ c ∈ cardValues, s.selectedCard = some c) →
      ((updateSaveButtonState s).saveBtnDisabled = false ↔
        trim s.taskInput ≠ [] ∧ s.selectedCard ≠ none)) ∧
    ((∀ c ∈ s.taskInput, isWhiteSpace c = true) →
      (updateSaveButtonState s).saveBtnDisabled = true) ∧
    (s.selectedCard = none → (updateSaveButtonState s).saveBtnDisabled = true) := by
  refine ⟨?_, ?_, ?_⟩
  · intro h
    rcases h with h | ⟨c, hc, h⟩
    · simp [updateSaveButtonState, h, truthyOrNull]
    · have hne : c ≠ [] := by
        intro e; subst e; revert hc; decide
      have h2 : truthy c = true := (truthy_eq_true_iff _).2 hne
      by_cases ht : trim s.taskInput = []
      · simp [updateSaveButtonState, h, truthyOrNull, ht, truthy]
      · have h1 : truthy (trim s.taskInput) = true := (truthy_eq_true_iff _).2 ht
        simp [updateSaveButtonState, h, truthyOrNull, ht, h1, h2]
  · intro h
    simp [updateSaveButtonState, trim_whiteSpace _ h, truthy]
  · intro h
    simp [updateSaveButtonState, h, truthyOrNull]

/-- C6, at concrete states: the card `0` with a task enables the button, the
card `0` with a blank task does not, a task without a card does not. -/
theorem updateSaveButtonState_canSave_witness :
    (updateSaveButtonState (sampleState "Fix bug" (some "0") [])).saveBtnDisabled = false ∧
    (updateSaveButtonState (sampleState " \t " (some "0") [])).saveBtnDisabled = true ∧
    (updateSaveButtonState (sampleState "Fix bug" none [])).saveBtnDisabled = true :=
  ⟨((updateSaveButtonState_canSave (sampleState "Fix bug" (some "0") [])).1
      (Or.inr ⟨utf16 "0", by decide, rfl⟩)).2 (by decide),
   (updateSaveButtonState_canSave (sampleState " \t " (some "0") [])).2.1 (by decide),
   (updateSaveButtonState_canSave (sampleState "Fix bug" none [])).2.2 rfl⟩

/-- C7. `clearAllHistory` on an empty history returns the state as it is,
whatever the user would answer: no dialog, no `setItem`, the history empty and
the storage untouched.  On a non-empty history with the dialog confirmed the
history becomes empty, one dialog is shown and `setItem` is called once, with
the serialisation of the empty list, which is what the storage then holds
under the key when the call completes. -/
theorem clearAllHistory_effects (env : Env) (s : State) :
    (s.estimationHistory = [] →
      clearAllHistory env s = s ∧
      prompts (clearAllHistory env s).effects = prompts s.effects ∧
      writes (clearAllHistory env s).effects = writes s.effects ∧
      (clearAllHistory env s).estimationHistory = [] ∧
      (clearAllHistory env s).localStorage = s.localStorage) ∧
    (s.estimationHistory ≠ [] → env.confirmAnswer = true →
      (clearAllHistory env s).estimationHistory = [] ∧
      prompts (clearAllHistory env s).effects = prompts s.effects ++ [clearAllMessage] ∧
      writes (clearAllHistory env s).effects = writes s.effects ++ [(storageKey, utf16 "[]")] ∧
      JSON.stringify [] = utf16 "[]" ∧
      (env.setItemOk = true →
        getItem (clearAllHistory env s).localStorage storageKey = some (utf16 "[]"))) := by
  constructor
  · intro h
    have : clearAllHistory env s = s := by simp [clearAllHistory, h]
    simp [this, h]
  · intro h hc
    have hl : s.estimationHistory.length ≠ 0 := by
      simpa [List.length_eq_zero] using h
    have hs : JSON.stringify [] = utf16 "[]" := by decide
    refine ⟨?_, ?_, ?_, hs, ?_⟩
    · simp [clearAllHistory, hl, hc, saveHistoryToStorage]
    · simp [clearAllHistory, hl, hc, saveHistoryToStorage, prompts_append, prompts]
    · simp [clearAllHistory, hl, hc, saveHistoryToStorage, writes_append, writes, hs]
    · intro hok
      simp [clearAllHistory, hl, hc, saveHistoryToStorage, hok, getItem_setItem, hs]

/-- C7, at concrete states: an empty history and a history of one record. -/
theorem clearAllHistory_effects_witness :
    clearAllHistory (sampleEnv 9) (sampleState "" none []) = sampleState "" none [] ∧
    (clearAllHistory (sampleEnv 9)
      (sampleState "" none [sampleRecord 5 "Fix bug" "3"])).estimationHistory = [] ∧
    getItem (clearAllHistory (sampleEnv 9)
      (sampleState "" none [sampleRecord 5 "Fix bug" "3"])).localStorage storageKey
        = some (utf16 "[]") :=
  ⟨((clearAllHistory_effects (sampleEnv 9) (sampleState "" none [])).1 rfl).1,
   ((clearAllHistory_effects (sampleEnv 9)
      (sampleState "" none [sampleRecord 5 "Fix bug" "3"])).2 (by decide) rfl).1,
   ((clearAllHistory_effects (sampleEnv 9)
      (sampleState "" none [sampleRecord 5 "Fix bug" "3"])).2 (by decide) rfl).2.2.2.2 rfl⟩

/-- C10. A declined dialog guards both destructive operations: with the
confirmation declined, `deleteEstimation id` and `clearAllHistory` leave the
history and the storage as they were and make no `setItem` call. -/
theorem declined_is_noop (env : Env) (id : JSNumber) (s : State)
    (hdecline : env.confirmAnswer = false) :
    (deleteEstimation env id s).estimationHistory = s.estimationHistory ∧
    (deleteEstimation env id s).localStorage = s.localStorage ∧
    writes (deleteEstimation env id s).effects = writes s.effects ∧
    (clearAllHistory env s).estimationHistory = s.estimationHistory ∧
    (clearAllHistory env s).localStorage = s.localStorage ∧
    writes (clearAllHistory env s).effects = writes s.effects := by
  refine ⟨?_, ?_, ?_, ?_, ?_, ?_⟩
  · simp [deleteEstimation, hdecline]
  · simp [deleteEstimation, hdecline]
  · simp [deleteEstimation, hdecline, writes_append, writes]
  · unfold clearAllHistory; split_ifs <;> simp_all
  · unfold clearAllHistory; split_ifs <;> simp_all
  · unfold clearAllHistory; split_ifs <;> simp_all [writes_append, writes]

/-- C10, at a concrete state: a history of two records survives both declined
operations. -/
theorem declined_is_noop_witness :
    (deleteEstimation (decliningEnv 9) (JSNumber.int 5)
      (sampleState "" none [sampleRecord 6 "Fix bug" "3", sampleRecord 5 "Design" "5"])).estimationHistory
        = [sampleRecord 6 "Fix bug" "3", sampleRecord 5 "Design" "5"] ∧
    (clearAllHistory (decliningEnv 9)
      (sampleState "" none [sampleRecord 6 "Fix bug" "3", sampleRecord 5 "Design" "5"])).estimationHistory
        = [sampleRecord 6 "Fix bug" "3", sampleRecord 5 "Design" "5"] :=
  ⟨(declined_is_noop (decliningEnv 9) (JSNumber.int 5)
      (sampleState "" none [sampleRecord 6 "Fix bug" "3", sampleRecord 5 "Design" "5"]) rfl).1,
   (declined_is_noop (decliningEnv 9) (JSNumber.int 5)
      (sampleState "" none [sampleRecord 6 "Fix bug" "3", sampleRecord 5 "Design" "5"]) rfl).2.2.2.1⟩

/-! ## Sequences of calls: the ids along the history -/

theorem laterReading_ne (a b : JSNumber) (h : laterReading a b) : a ≠ b := by
  obtain ⟨m, n, rfl, rfl, hlt⟩ := h
  intro e
  have := JSNumber.int.inj e
  omega

/-- The invariant one call keeps: each id of the history is a later reading
than the ids after it, and each is a reading below a bound that the clock of
the next save reaches. -/
theorem applyOp_sorted (op : Op) (s : State) (bound : Nat)
    (hs : (s.estimationHistory.map Estimation.id).Pairwise laterReading)
    (hb : ∀ r ∈ s.estimationHistory, readingBelow bound r.id)
    (hclock : ∀ t ∈ saveClocks [op], bound ≤ t) :
    ((applyOp op s).estimationHistory.map Estimation.id).Pairwise laterReading ∧
    (∀ r ∈ (applyOp op s).estimationHistory,
      readingBelow bound r.id ∨ ∃ t ∈ saveClocks [op], r.id = JSNumber.int t) := by
  cases op with
  | save env task card =>
    have hc : bound ≤ env.now := hclock env.now (by simp [saveClocks])
    rcases saveEstimation_history env { s with taskInput := task, selectedCard := card }
      with h | ⟨r, hid, -, h⟩
    · simp only [applyOp, h]
      exact ⟨hs, fun r hr => Or.inl (hb r hr)⟩
    · simp only [applyOp, h]
      refine ⟨?_, ?_⟩
      · rw [List.map_cons, List.pairwise_cons]
        refine ⟨?_, hs⟩
        intro x hx
        obtain ⟨y, hy, rfl⟩ := List.mem_map.mp hx
        obtain ⟨n, hn, hlt⟩ := hb y hy
        exact ⟨env.now, n, hid, hn, by omega⟩
      · intro x hx
        rcases List.mem_cons.mp hx with rfl | hx
        · exact Or.inr ⟨env.now, by simp [saveClocks], hid⟩
        · exact Or.inl (hb x hx)
  | delete env id =>
    simp only [applyOp, deleteEstimation_history]
    split_ifs
    · refine ⟨?_, fun r hr => Or.inl (hb r (List.mem_of_mem_filter hr))⟩
      exact hs.sublist ((List.filter_sublist _).map _)
    · exact ⟨hs, fun r hr => Or.inl (hb r hr)⟩
  | clearAll env =>
    rcases clearAllHistory_history env s with h | h
    · simp only [applyOp, h]
      exact ⟨hs, fun r hr => Or.inl (hb r hr)⟩
    · simp only [applyOp, h]
      exact ⟨by simp, by simp⟩

theorem saveClocks_cons (op : Op) (ops : List Op) :
    saveClocks (op :: ops) = saveClocks [op] ++ saveClocks ops := by
  cases op <;> simp [saveClocks]

/-- With strictly increasing clock readings at the saves, each id of the
history stays a later reading than the ids after it. -/
theorem runOps_sorted (ops : List Op) :
    ∀ (s : State), (s.estimationHistory.map Estimation.id).Pairwise laterReading →
      (∀ r ∈ s.estimationHistory, ∀ t ∈ saveClocks ops, readingBelow t r.id) →
      (saveClocks ops).Pairwise (fun a b => a < b) →
      ((runOps ops s).estimationHistory.map Estimation.id).Pairwise laterReading := by
  induction ops with
  | nil => intro s hs _ _; exact hs
  | cons op ops ih =>
    intro s hs hb hclk
    rw [saveClocks_cons, List.pairwise_append] at hclk
    obtain ⟨-, hclk2, hcross⟩ := hclk
    show ((runOps ops (applyOp op s)).estimationHistory.map Estimation.id).Pairwise _
    cases op with
    | save env task card =>
      have hstep := applyOp_sorted (Op.save env task card) s env.now hs
        (fun r hr => hb r hr env.now (by simp [saveClocks]))
        (by simp [saveClocks])
      refine ih _ hstep.1 ?_ hclk2
      intro r hr t ht
      have hlt : env.now < t := hcross env.now (by simp [saveClocks]) t ht
      rcases hstep.2 r hr with ⟨n, hn, hnlt⟩ | ⟨u, hu, h⟩
      · exact ⟨n, hn, by omega⟩
      · simp [saveClocks] at hu
        exact ⟨u, h, by omega⟩
    | delete env id =>
      refine ih _ ?_ ?_ hclk2
      · simp only [applyOp, deleteEstimation_history]
        split_ifs
        · exact hs.sublist ((List.filter_sublist _).map _)
        · exact hs
      · intro r hr t ht
        simp only [applyOp, deleteEstimation_history] at hr
        split_ifs at hr
        · exact hb r (List.mem_of_mem_filter hr) t (by rw [saveClocks_cons]; simp [ht])
        · exact hb r hr t (by rw [saveClocks_cons]; simp [ht])
    | clearAll env =>
      rcases clearAllHistory_history env s with h | h
      · refine ih _ (by simpa only [applyOp, h] using hs) ?_ hclk2
        intro r hr t ht
        simp only [applyOp, h] at hr
        exact hb r hr t (by rw [saveClocks_cons]; simp [ht])
      · refine ih _ (by simp [applyOp, h]) ?_ hclk2
        intro r hr
        simp [applyOp, h] at hr

/-- C3, the code at the failing input: with two records of id 5 in the
history, a confirmed `deleteEstimation(5)` removes both, so the new length,
zero, is neither the old length, two, nor the old length minus one. -/
theorem deleteEstimation_removes_both :
    (deleteEstimation (sampleEnv 9) (JSNumber.int 5)
      (sampleState "" none sameIdHistory)).estimationHistory = [] ∧
    (sampleState "" none sameIdHistory).estimationHistory.length = 2 ∧
    ¬ ((deleteEstimation (sampleEnv 9) (JSNumber.int 5)
          (sampleState "" none sameIdHistory)).estimationHistory.length
        = (sampleState "" none sameIdHistory).estimationHistory.length ∨
       (deleteEstimation (sampleEnv 9) (JSNumber.int 5)
          (sampleState "" none sameIdHistory)).estimationHistory.length
        = (sampleState "" none sameIdHistory).estimationHistory.length - 1) := by
  decide

/-- C2, as stated, fails: two saves at the same clock reading 5 (a
non-decreasing sequence of readings) leave two records with the id 5; the same
history is reached through the listeners of the page, by typing and clicking. -/
theorem same_tick_ids_collide :
    (saveClocks sameTickSaves).Pairwise (fun a b => a ≤ b) ∧
    (runOps sameTickSaves (initialState [])).estimationHistory = sameIdHistory ∧
    (run sameTickSession (initialState [])).estimationHistory = sameIdHistory ∧
    ¬ ((runOps sameTickSaves (initialState [])).estimationHistory.map Estimation.id).Nodup := by
  decide

/-- C2, amended.  In every state reached from an empty history by any sequence
of `saveEstimation`, `deleteEstimation` and `clearAllHistory` calls (confirmed
or declined), with a strictly increasing sequence of clock readings given to
the saves, no two records of the history have the same id. -/
theorem ids_unique_of_increasing_clock (ops : List Op) (s : State)
    (hempty : s.estimationHistory = [])
    (hclock : (saveClocks ops).Pairwise (fun a b => a < b)) :
    ((runOps ops s).estimationHistory.map Estimation.id).Nodup := by
  have := runOps_sorted ops s (by simp [hempty]) (by simp [hempty]) hclock
  exact this.imp (fun h => laterReading_ne _ _ h)

/-- C2 amended, at a concrete sequence: saves at the readings 5 and 6 and a
delete. -/
theorem ids_unique_of_increasing_clock_witness :
    ((runOps saveSaveDelete (initialState [])).estimationHistory.map Estimation.id).Nodup :=
  ids_unique_of_increasing_clock saveSaveDelete (initialState []) rfl (by decide)

/-- C9, the code at the failing input: two successful saves at the same clock
reading 5 and a confirmed delete of the id 5, present in the history, leave an
empty history, while the number of saves minus the number of deletes is one.
After the two saves alone the history holds the later save first. -/
theorem same_tick_delete_breaks_length :
    savesAndPresentDeletes sameTickSavesThenDelete (initialState []) = true ∧
    (saveClocks sameTickSavesThenDelete).Pairwise (fun a b => a ≤ b) ∧
    (runOps sameTickSaves (initialState [])).estimationHistory =
      [sampleRecord 5 "Fix bug" "3", sampleRecord 5 "Design login page" "5"] ∧
    (runOps sameTickSavesThenDelete (initialState [])).estimationHistory = [] ∧
    (runOps sameTickSavesThenDelete (initialState [])).estimationHistory.length ≠
      countSaves sameTickSavesThenDelete - countDeletes sameTickSavesThenDelete := by
  decide

/-! ## Card-set membership along event sequences -/

theorem cardClick_mem (index : Fin 13) : cardValues.getD index.val [] ∈ cardValues := by
  revert index; decide

theorem saveEstimation_selectedCard (env : Env) (s : State) :
    (saveEstimation env s).selectedCard = s.selectedCard ∨
    (saveEstimation env s).selectedCard = none := by
  unfold saveEstimation
  split_ifs
  · exact Or.inl rfl
  · split
    · exact Or.inl rfl
    · exact Or.inr rfl

theorem step_cardSetInvariant (env : Env) (e : Event) (s : State) (h : cardSetInvariant s) :
    cardSetInvariant (step env e s) := by
  obtain ⟨hsel, hhist⟩ := h
  have hsave : ∀ (s : State), cardSetInvariant s → cardSetInvariant (saveEstimation env s) := by
    intro s ⟨hsel, hhist⟩
    refine ⟨?_, ?_⟩
    · rcases saveEstimation_selectedCard env s with h | h
      · rw [h]; exact hsel
      · exact Or.inl h
    · rcases saveEstimation_history env s with h | ⟨r, -, ⟨card, hc, hr⟩, h⟩
      · rw [h]; exact hhist
      · rw [h]
        intro x hx
        rcases List.mem_cons.mp hx with rfl | hx
        · rcases hsel with hn | ⟨c, hcm, hcs⟩
          · rw [hn] at hc; cases hc
          · rw [hcs] at hc
            rw [hr, ← Option.some.inj hc]; exact hcm
        · exact hhist x hx
  have hselect : ∀ (v : JSString) (s : State), v ∈ cardValues → cardSetInvariant s →
      cardSetInvariant (selectCard v s) := by
    intro v s hv ⟨_, hhist⟩
    exact ⟨Or.inr ⟨v, hv, rfl⟩, hhist⟩
  have hclear : ∀ (s : State), cardSetInvariant s → cardSetInvariant (clearCurrentTask s) := by
    intro s ⟨_, hhist⟩
    exact ⟨Or.inl rfl, hhist⟩
  cases e with
  | input value => exact ⟨hsel, hhist⟩
  | cardClick index => exact hselect _ s (cardClick_mem index) ⟨hsel, hhist⟩
  | keydown key =>
    simp only [step, onKeydown]
    by_cases hf : s.taskInputFocused = true
    · rw [if_pos hf]; exact ⟨hsel, hhist⟩
    · rw [if_neg hf]
      have h1 : cardSetInvariant (if cardValues.contains key = true then selectCard key s else s) := by
        split_ifs with hk
        · exact hselect _ _ (by simpa using hk) ⟨hsel, hhist⟩
        · exact ⟨hsel, hhist⟩
      generalize (if cardValues.contains key = true then selectCard key s else s) = s1 at h1 ⊢
      have h2 : cardSetInvariant (if key = utf16 "Enter" ∧ s1.saveBtnDisabled = false
          then saveEstimation env s1 else s1) := by
        split_ifs
        · exact hsave _ h1
        · exact h1
      generalize (if key = utf16 "Enter" ∧ s1.saveBtnDisabled = false
          then saveEstimation env s1 else s1) = s2 at h2 ⊢
      split_ifs
      · exact hclear _ h2
      · exact h2
  | saveClick => exact hsave s ⟨hsel, hhist⟩
  | clearClick =>
    simp only [step, onClearClick]
    split_ifs
    · exact hclear s ⟨hsel, hhist⟩
    · exact ⟨hsel, hhist⟩
  | deleteClick id =>
    refine ⟨?_, ?_⟩
    · simp only [step, deleteEstimation]; split_ifs <;> exact hsel
    · simp only [step, deleteEstimation_history]
      split_ifs
      · exact fun r hr => hhist r (List.mem_of_mem_filter hr)
      · exact hhist
  | clearHistoryClick =>
    refine ⟨?_, ?_⟩
    · simp only [step, clearAllHistory]; split_ifs <;> exact hsel
    · rcases clearAllHistory_history env s with h | h
      · simp only [step, h]; exact hhist
      · simp only [step, h]; simp
  | focusChange b => exact ⟨hsel, hhist⟩

theorem run_cardSetInvariant (events : List (Env × Event)) :
    ∀ (s : State), cardSetInvariant s → cardSetInvariant (run events s) := by
  induction events with
  | nil => intro s h; exact h
  | cons ee events ih => intro s h; exact ih _ (step_cardSetInvariant ee.1 ee.2 s h)

/-- C8. Card-set membership is an invariant: in every state reached from a
state with no card selected and an empty history by any sequence of task
edits, card clicks, key presses with any key string, save, clear, delete and
clear-all clicks and focus changes, the selected card is unset or one of the
thirteen labels of `cardValues`, and the estimate of every record of the
history is one of those labels. -/
theorem card_set_membership (events : List (Env × Event)) (s : State)
    (hcard : s.selectedCard = none) (hempty : s.estimationHistory = []) :
    ((run events s).selectedCard = none ∨
      ∃ c ∈ cardValues, (run events s).selectedCard = some c) ∧
    ∀ r ∈ (run events s).estimationHistory, r.estimate ∈ cardValues :=
  run_cardSetInvariant events s ⟨Or.inl hcard, by simp [hempty]⟩

/-- C8, at a concrete session from the initial state: one record is left, its
estimate is a card label, and the selection is unset or a card label. -/
theorem card_set_membership_witness :
    (initialState []).selectedCard = none ∧ (initialState []).estimationHistory = [] ∧
    ((run sampleSession (initialState [])).selectedCard = none ∨
      ∃ c ∈ cardValues, (run sampleSession (initialState [])).selectedCard = some c) ∧
    (run sampleSession (initialState [])).estimationHistory.all
      (fun r => decide (r.estimate ∈ cardValues)) = true :=
  ⟨rfl, rfl, (card_set_membership sampleSession (initialState []) rfl rfl).1,
   List.all_eq_true.mpr (fun r hr =>
     decide_eq_true ((card_set_membership sampleSession (initialState []) rfl rfl).2 r hr))⟩

/-! ## Persistence -/

theorem numberToJS_injective (a b : JSNumber) (h : a.toJS = b.toJS) : a = b := by
  cases a <;> cases b <;> simp_all [JSNumber.toJS]

theorem toJS_injective (a b : Estimation) (h : a.toJS = b.toJS) : a = b := by
  obtain ⟨i1, t1, e1, s1⟩ := a
  obtain ⟨i2, t2, e2, s2⟩ := b
  simp only [Estimation.toJS, JSValue.object.injEq, List.cons.injEq, Prod.mk.injEq,
    JSValue.string.injEq, true_and, and_true] at h
  obtain ⟨hid, rfl, rfl, rfl⟩ := h
  rw [numberToJS_injective _ _ hid]

theorem historyToJS_injective (h1 h2 : List Estimation) (h : historyToJS h1 = historyToJS h2) :
    h1 = h2 := by
  simp only [historyToJS, JSValue.array.injEq] at h
  exact List.map_injective_iff.mpr (fun a b => toJS_injective a b) h

theorem stringify_truthy (h : List Estimation) : truthy (JSON.stringify h) = true := by
  simp [JSON.stringify, truthy]

/-- When the stored text does not parse, the history becomes the empty array. -/
theorem loadHistoryFromStorage_syntaxError (st : Storage) (cur : JSValue) (text : JSString)
    (e : JSError) (hget : getItem st storageKey = some text) (hne : text ≠ [])
    (hparse : JSON.parse text = Except.error e) :
    loadHistoryFromStorage st cur = JSValue.array [] := by
  simp [loadHistoryFromStorage, hget, (truthy_eq_true_iff text).2 hne, hparse]

/-- C5, as stated, fails in two ways.  When `setItem` throws (the storage
refuses the write) the storage keeps the text it held, here the serialised
empty list, and the load that follows replaces a history of one record by the
empty array.  And when the write completes, a record whose numeric id is
`Infinity` is written with the id `null` and loads with the id `null`. -/
theorem round_trip_fails :
    (loadHistoryFromStorage
        (saveHistoryToStorage (fullStorageEnv 9)
          { sampleState "" none [sampleRecord 5 "Fix bug" "3"] with
            localStorage := [(storageKey, utf16 "[]")] }).localStorage
        (historyToJS [sampleRecord 5 "Fix bug" "3"]) = JSValue.array [] ∧
      JSValue.array [] ≠ historyToJS [sampleRecord 5 "Fix bug" "3"]) ∧
    (loadHistoryFromStorage
        (saveHistoryToStorage (sampleEnv 9)
          (sampleState "" none [infiniteIdRecord])).localStorage
        (historyToJS [infiniteIdRecord]) =
      JSValue.array [JSValue.object
        [(utf16 "id", JSValue.null), (utf16 "task", JSValue.string (utf16 "Fix bug")),
         (utf16 "estimate", JSValue.string (utf16 "3")),
         (utf16 "timestamp", JSValue.string (utf16 "11/4/2026, 9:00:00 PM"))]] ∧
      JSValue.array [JSValue.object
        [(utf16 "id", JSValue.null), (utf16 "task", JSValue.string (utf16 "Fix bug")),
         (utf16 "estimate", JSValue.string (utf16 "3")),
         (utf16 "timestamp", JSValue.string (utf16 "11/4/2026, 9:00:00 PM"))]] ≠
        historyToJS [infiniteIdRecord]) := by
  refine ⟨⟨rfl, ?_⟩, ⟨rfl, ?_⟩⟩
  · simp [historyToJS]
  · simp [historyToJS, Estimation.toJS, infiniteIdRecord, JSNumber.toJS]

/-- C5, amended.  Round trip: for every history, possibly empty, of records
whose id is an integer of magnitude below 10^21 (every reading of `Date.now()`
is one), when the `setItem` call of `saveHistoryToStorage` completes,
`loadHistoryFromStorage` afterwards sets the in-memory history, whatever it
held, to the array of the same records in the same order with the same field
values (and to no other history); the save itself leaves the in-memory history
as it was. -/
theorem save_then_load_round_trip (env : Env) (s : State) (current : JSValue)
    (hwritten : env.setItemOk = true)
    (hids : ∀ r ∈ s.estimationHistory, integerBelow1e21 r.id) :
    (saveHistoryToStorage env s).estimationHistory = s.estimationHistory ∧
    loadHistoryFromStorage (saveHistoryToStorage env s).localStorage current =
      historyToJS s.estimationHistory ∧
    ∀ h, loadHistoryFromStorage (saveHistoryToStorage env s).localStorage current =
      historyToJS h → h = s.estimationHistory := by
  have hload : loadHistoryFromStorage (saveHistoryToStorage env s).localStorage current =
      historyToJS s.estimationHistory := by
    simp [loadHistoryFromStorage, saveHistoryToStorage, hwritten, getItem_setItem,
      stringify_truthy, parse_stringify _ hids]
  refine ⟨rfl, hload, ?_⟩
  intro h hh
  rw [hload] at hh
  exact (historyToJS_injective _ _ hh).symm

/-- C5 amended, at a concrete history of three records: a task that holds a
quote, a backslash and a line feed, and a negative id. -/
theorem save_then_load_round_trip_witness :
    loadHistoryFromStorage
      (saveHistoryToStorage (sampleEnv 9)
        (sampleState "" none
          [sampleRecord 6 "say \"hi\" \\ \n" "☕", sampleRecord 5 "Fix bug" "3",
           { sampleRecord 0 "Before 1970" "1" with id := JSNumber.int (-86400000) }])).localStorage
      JSValue.null =
    historyToJS [sampleRecord 6 "say \"hi\" \\ \n" "☕", sampleRecord 5 "Fix bug" "3",
      { sampleRecord 0 "Before 1970" "1" with id := JSNumber.int (-86400000) }] :=
  (save_then_load_round_trip (sampleEnv 9)
    (sampleState "" none [sampleRecord 6 "say \"hi\" \\ \n" "☕", sampleRecord 5 "Fix bug" "3",
      { sampleRecord 0 "Before 1970" "1" with id := JSNumber.int (-86400000) }])
    JSValue.null rfl (by
      intro r hr
      simp only [sampleState, List.mem_cons, List.mem_singleton, List.not_mem_nil, or_false] at hr
      rcases hr with rfl | rfl | rfl
      · exact ⟨6, rfl, by decide, by decide⟩
      · exact ⟨5, rfl, by decide, by decide⟩
      · exact ⟨-86400000, rfl, by decide, by decide⟩)).2.1

/-- C4, the code at the failing inputs: with the well-formed JSON texts `null`,
an empty object and `42` stored under the key, `loadHistoryFromStorage` raises
nothing and leaves in `estimationHistory` the value `JSON.parse` returned,
which is not the empty array. -/
theorem loadHistoryFromStorage_non_array :
    loadHistoryFromStorage [(storageKey, utf16 "null")] (JSValue.array []) = JSValue.null ∧
    loadHistoryFromStorage [(storageKey, [0x7B, 0x7D])] (JSValue.array []) = JSValue.object [] ∧
    loadHistoryFromStorage [(storageKey, utf16 "42")] (JSValue.array []) = JSValue.number 42 ∧
    JSValue.null ≠ JSValue.array [] ∧ JSValue.object [] ≠ JSValue.array [] ∧
    JSValue.number 42 ≠ JSValue.array [] := by
  refine ⟨rfl, rfl, ?_, by simp, by simp, by simp⟩
  have h : loadHistoryFromStorage [(storageKey, utf16 "42")] (JSValue.array []) =
      numberValue ((((42 : ℕ) : ℚ) + 0) * (10 : ℚ) ^ (0 : ℤ)) := rfl
  rw [h]
  have h42 : (((42 : ℕ) : ℚ) + 0) * (10 : ℚ) ^ (0 : ℤ) = ((42 : ℤ) : ℚ) := by norm_num
  rw [h42, numberValue_integer 42 (by decide) (by decide)]
  norm_num

end PlanningPoker
